import Mathlib

/-!
Verification of `deepod/utils/data.py` from the `Rova_for_outliers` repository:
the synthetic-data helpers `_generate_data` (Sampler) and `generate_data`
(Generator).

Modelling choices (shallow embedding):

* Floating-point numbers are modelled by `ℚ`.  Special IEEE values that the
  code injects (`np.NaN`, `np.infty`) are modelled by the dedicated `Entry`
  constructors `nan` and `inf`; every ordinary number is `Entry.val q`.
* The numpy `RandomState` is modelled as an abstract deterministic draw
  source: three streams (`normals` for `randn`, `uniforms` for
  `uniform`/`random_sample`, `ints` for `randint`) together with a cursor
  `pos` counting how many draws have been consumed.  Each primitive reads its
  stream at the cursor and advances the cursor, so two calls sharing the
  source see it advanced, exactly as in numpy.  Each primitive also reports
  the list of draw kinds it consumed, so that draw-accounting claims can be
  stated.
* `randn(n, f)` produces the next `n*f` normal variates in row-major order;
  `uniform(low, high, (n, f))` maps the next `n*f` unit variates `u` to
  `low + (high - low) * u`; `randint(low)` (numpy semantics with `high=None`)
  draws from `[0, low)` and raises `ValueError` when `low = 0`, modelled by
  `Option.none`; `random_sample()` draws one unit variate.
* numpy raises `ValueError` on negative array dimensions, so `_generate_data`
  returns `none` when `n_inliers` or `n_outliers` is negative.  The
  `n_nan`/`n_inf` appends are guarded by `> 0` in the source, so negative
  values there raise nothing.
* Python `int()` truncation toward zero is `pyInt`.
-/

namespace Rova

/-- One cell of a generated array: an ordinary number, `np.NaN`, or
`np.infty`. -/
inductive Entry where
  | val (x : ℚ)
  | nan
  | inf
deriving DecidableEq

/-- The kind of random draw a primitive consumed: a `randn` normal variate, a
`uniform` variate, a `randint` integer, or a `random_sample` unit variate. -/
inductive DrawKind where
  | gauss
  | uniform
  | intDraw
  | sample
deriving DecidableEq

/-- Abstract model of `np.random.RandomState`: deterministic streams of
variates plus a cursor counting consumed draws. -/
structure RandomState where
  normals : ℕ → ℚ
  uniforms : ℕ → ℚ
  ints : ℕ → ℕ
  pos : ℕ

/-- Advance the cursor by `k` consumed draws. -/
def RandomState.advance (rs : RandomState) (k : ℕ) : RandomState :=
  ⟨rs.normals, rs.uniforms, rs.ints, rs.pos + k⟩

/-- `random_state.randn(n, f)`: an `n × f` matrix of standard-normal draws,
consuming `n * f` draws in row-major order. -/
def randnMatrix (n f : ℕ) (rs : RandomState) :
    List (List ℚ) × RandomState × List DrawKind :=
  ((List.range n).map fun i => (List.range f).map fun j =>
      rs.normals (rs.pos + (i * f + j)),
   rs.advance (n * f), List.replicate (n * f) DrawKind.gauss)

/-- `random_state.uniform(low, high, size=(n, f))`: an `n × f` matrix of
uniform draws over `[low, high)`, consuming `n * f` draws. -/
def uniformMatrix (low high : ℚ) (n f : ℕ) (rs : RandomState) :
    List (List ℚ) × RandomState × List DrawKind :=
  ((List.range n).map fun i => (List.range f).map fun j =>
      low + (high - low) * rs.uniforms (rs.pos + (i * f + j)),
   rs.advance (n * f), List.replicate (n * f) DrawKind.uniform)

/-- `random_state.randint(low=b)` (numpy semantics with `high=None`): one
integer draw from `[0, b)`; raises `ValueError` (here `none`) when the range
is empty, i.e. when `b = 0`. -/
def randint (b : ℕ) (rs : RandomState) :
    Option (ℕ × RandomState × List DrawKind) :=
  if b = 0 then none
  else some (rs.ints rs.pos % b, rs.advance 1, [DrawKind.intDraw])

/-- `random_state.random_sample()`: one unit-uniform draw from `[0, 1)`. -/
def random_sample (rs : RandomState) : ℚ × RandomState × List DrawKind :=
  (rs.uniforms rs.pos, rs.advance 1, [DrawKind.sample])

/-- Python `int()` applied to a float: truncation toward zero. -/
def pyInt (x : ℚ) : ℤ :=
  if 0 ≤ x then ⌊x⌋ else -⌊-x⌋

/-- `_generate_data` from `deepod/utils/data.py`.  Returns `none` when numpy
would raise (a negative inlier or outlier count reaching an array shape);
otherwise the feature matrix `X`, the label vector `y`, the advanced random
state, and the list of draw kinds consumed. -/
def _generate_data (n_inliers n_outliers : ℤ) (n_features : ℕ)
    (coef offset : ℚ) (rs : RandomState) (n_nan n_inf : ℤ) :
    Option ((List (List Entry) × List Entry) × RandomState × List DrawKind) :=
  if 0 ≤ n_inliers ∧ 0 ≤ n_outliers then
    let res1 := randnMatrix n_inliers.toNat n_features rs
    let inliers : List (List ℚ) :=
      res1.1.map fun row => row.map fun x => coef * x + offset
    let res2 := uniformMatrix (-1 * offset) offset n_outliers.toNat n_features
      res1.2.1
    let X0 : List (List Entry) :=
      inliers.map (fun row => row.map Entry.val) ++
        res2.1.map (fun row => row.map Entry.val)
    let y0 : List Entry :=
      List.replicate n_inliers.toNat (Entry.val 0) ++
        List.replicate n_outliers.toNat (Entry.val 1)
    let X1 := if 0 < n_nan then
        X0 ++ List.replicate n_nan.toNat (List.replicate n_features Entry.nan)
      else X0
    let y1 := if 0 < n_nan then
        y0 ++ List.replicate n_nan.toNat Entry.nan
      else y0
    let X2 := if 0 < n_inf then
        X1 ++ List.replicate n_inf.toNat (List.replicate n_features Entry.inf)
      else X1
    let y2 := if 0 < n_inf then
        y1 ++ List.replicate n_inf.toNat Entry.inf
      else y1
    some ((X2, y2), res2.2.1, res1.2.2 ++ res2.2.2)
  else none

/-- The result of `generate_data`: a 2-tuple when `train_only`, otherwise the
4-tuple `(X_train, X_test, y_train, y_test)`. -/
inductive GenerateResult where
  | trainOnly (X_train : List (List Entry)) (y_train : List Entry)
  | trainTest (X_train X_test : List (List Entry))
      (y_train y_test : List Entry)
deriving DecidableEq

/-- `n_outliers_train = int(n_train * contamination)` (and symmetrically for
the test split). -/
def n_outliers_of (n : ℕ) (contamination : ℚ) : ℤ :=
  pyInt ((n : ℚ) * contamination)

/-- `n_inliers_train = int(n_train - n_outliers_train)` (and symmetrically
for the test split). -/
def n_inliers_of (n : ℕ) (contamination : ℚ) : ℤ :=
  (n : ℤ) - n_outliers_of n contamination

/-- `coef_ = random_state.random_sample() + 0.001`, applied to the state
after the `randint` draw. -/
def coefDerived (rs : RandomState) : ℚ :=
  (random_sample rs).1 + 0.001

/-- `generate_data` from `deepod/utils/data.py`, with `random_state` already
materialised (`check_random_state`) into a `RandomState`.  `none` models an
uncaught exception. -/
def generate_data (n_train n_test n_features : ℕ) (contamination : ℚ)
    (train_only : Bool) (offset : ℕ) (rs : RandomState) (n_nan n_inf : ℤ) :
    Option GenerateResult :=
  match randint offset rs with
  | none => none
  | some r1 =>
    let coef_ : ℚ := coefDerived r1.2.1
    let rs2 := (random_sample r1.2.1).2.1
    match _generate_data (n_inliers_of n_train contamination)
        (n_outliers_of n_train contamination) n_features coef_ (r1.1 : ℚ)
        rs2 n_nan n_inf with
    | none => none
    | some tr =>
      if train_only then some (GenerateResult.trainOnly tr.1.1 tr.1.2)
      else
        match _generate_data (n_inliers_of n_test contamination)
            (n_outliers_of n_test contamination) n_features coef_ (r1.1 : ℚ)
            tr.2.1 n_nan n_inf with
        | none => none
        | some te =>
          some (GenerateResult.trainTest tr.1.1 te.1.1 tr.1.2 te.1.2)

/-- A concrete random state whose streams are identically zero; `0` is a
legitimate value for every numpy draw used here. -/
def rs0 : RandomState := ⟨fun _ => 0, fun _ => 0, fun _ => 0, 0⟩

/-- A guarded append of `n.toNat` copies equals the unguarded one as soon as
`0 ≤ n`: when the `0 < n` guard fails, `n.toNat = 0` and both sides are
nil. -/
theorem replicate_ite_of_nonneg {α : Type} (n : ℤ) (hn : 0 ≤ n) (a : α) :
    (if 0 < n then List.replicate n.toNat a else []) =
      List.replicate n.toNat a := by
  split_ifs with h
  · rfl
  · have hz : n = 0 := le_antisymm (not_lt.mp h) hn
    simp [hz]

/-- Characterisation of a successful `_generate_data` call: with non-negative
inlier and outlier counts it returns `some`, the feature matrix is a core of
`n_inliers + n_outliers` rows of width `n_features` followed by the guarded
NaN and infinity blocks, the label vector is zeros, ones, then the guarded
NaN and infinity tails, the state is advanced by exactly the Gaussian and
uniform draws, and the consumed draw kinds are those draws in order. -/
theorem _generate_data_char (nI nO : ℤ) (f : ℕ) (coef off : ℚ)
    (rs : RandomState) (nn ninf : ℤ) (hI : 0 ≤ nI) (hO : 0 ≤ nO) :
    ∃ core : List (List Entry),
      core.length = nI.toNat + nO.toNat ∧
      (∀ row ∈ core, row.length = f) ∧
      _generate_data nI nO f coef off rs nn ninf =
        some ((core ++
            (if 0 < nn then
              List.replicate nn.toNat (List.replicate f Entry.nan) else []) ++
            (if 0 < ninf then
              List.replicate ninf.toNat (List.replicate f Entry.inf) else []),
          List.replicate nI.toNat (Entry.val 0) ++
            List.replicate nO.toNat (Entry.val 1) ++
            (if 0 < nn then List.replicate nn.toNat Entry.nan else []) ++
            (if 0 < ninf then List.replicate ninf.toNat Entry.inf else [])),
          rs.advance (nI.toNat * f + nO.toNat * f),
          List.replicate (nI.toNat * f) DrawKind.gauss ++
            List.replicate (nO.toNat * f) DrawKind.uniform) := by
  refine ⟨((randnMatrix nI.toNat f rs).1.map fun row =>
      row.map fun x => Entry.val (coef * x + off)) ++
    ((uniformMatrix (-1 * off) off nO.toNat f
        (rs.advance (nI.toNat * f))).1.map fun row => row.map Entry.val),
    ?_, ?_, ?_⟩
  · simp [randnMatrix, uniformMatrix]
  · intro row hrow
    rcases List.mem_append.mp hrow with h | h <;>
      · simp only [randnMatrix, uniformMatrix, List.mem_map,
          List.mem_range] at h
        obtain ⟨r, ⟨i, -, hr⟩, hrow'⟩ := h
        subst hrow'
        simp [← hr]
  · unfold _generate_data
    rw [if_pos ⟨hI, hO⟩]
    simp only [randnMatrix, uniformMatrix, List.map_map, Function.comp]
    split_ifs <;>
      simp [RandomState.advance, Nat.add_assoc, List.append_assoc]

/-- C1: for every call of the Sampler (`_generate_data`) with non-negative
counts `n_inliers`, `n_outliers`, `n_nan`, `n_inf` and positive `n_features`,
the returned `X` and `y` have equal row counts, both equal to
`n_inliers + n_outliers + n_nan + n_inf`. -/
theorem _generate_data_row_counts (nI nO nn ninf : ℤ) (f : ℕ)
    (coef off : ℚ) (rs : RandomState)
    (hI : 0 ≤ nI) (hO : 0 ≤ nO) (hn : 0 ≤ nn) (hf : 0 ≤ ninf) (hfeat : 0 < f)
    (X : List (List Entry)) (y : List Entry) (rs' : RandomState)
    (tr : List DrawKind)
    (h : _generate_data nI nO f coef off rs nn ninf = some ((X, y), rs', tr)) :
    X.length = y.length ∧ X.length = (nI + nO + nn + ninf).toNat := by
  obtain ⟨core, hlen, -, heq⟩ :=
    _generate_data_char nI nO f coef off rs nn ninf hI hO
  rw [heq] at h
  simp only [Option.some.injEq, Prod.mk.injEq] at h
  obtain ⟨⟨hX, hy⟩, -, -⟩ := h
  subst hX hy
  simp only [replicate_ite_of_nonneg nn hn, replicate_ite_of_nonneg ninf hf,
    List.length_append, List.length_replicate, hlen]
  exact ⟨trivial, by omega⟩

/-- Witness for C1 at a concrete input. -/
theorem _generate_data_row_counts_witness :
    ([[Entry.val 0], [Entry.val 0], [Entry.val 0], [Entry.nan],
        [Entry.inf]] : List (List Entry)).length =
      ([Entry.val 0, Entry.val 0, Entry.val 1, Entry.nan,
        Entry.inf] : List Entry).length ∧
    ([[Entry.val 0], [Entry.val 0], [Entry.val 0], [Entry.nan],
        [Entry.inf]] : List (List Entry)).length =
      ((2 : ℤ) + 1 + 1 + 1).toNat :=
  _generate_data_row_counts 2 1 1 1 1 0 0 rs0 (by norm_num) (by norm_num)
    (by norm_num) (by norm_num) (by norm_num) _ _ (rs0.advance 3)
    [DrawKind.gauss, DrawKind.gauss, DrawKind.uniform]
    (by norm_num [_generate_data, randnMatrix, uniformMatrix, rs0,
      RandomState.advance, List.range_succ] <;> decide)

/-- C2: for every Sampler call, the returned label vector `y` is exactly
`n_inliers` zeros, then `n_outliers` ones, then (when `n_nan > 0`) `n_nan`
NaN entries, then (when `n_inf > 0`) `n_inf` positive-infinity entries. -/
theorem _generate_data_labels (nI nO nn ninf : ℤ) (f : ℕ) (coef off : ℚ)
    (rs : RandomState) (hI : 0 ≤ nI) (hO : 0 ≤ nO)
    (X : List (List Entry)) (y : List Entry) (rs' : RandomState)
    (tr : List DrawKind)
    (h : _generate_data nI nO f coef off rs nn ninf = some ((X, y), rs', tr)) :
    y = List.replicate nI.toNat (Entry.val 0) ++
        List.replicate nO.toNat (Entry.val 1) ++
        (if 0 < nn then List.replicate nn.toNat Entry.nan else []) ++
        (if 0 < ninf then List.replicate ninf.toNat Entry.inf else []) := by
  obtain ⟨core, -, -, heq⟩ :=
    _generate_data_char nI nO f coef off rs nn ninf hI hO
  rw [heq] at h
  simp only [Option.some.injEq, Prod.mk.injEq] at h
  exact h.1.2.symm

/-- Witness for C2 at a concrete input. -/
theorem _generate_data_labels_witness :
    ([Entry.val 0, Entry.val 1, Entry.val 1, Entry.nan, Entry.nan] :
        List Entry) =
      List.replicate (1 : ℤ).toNat (Entry.val 0) ++
        List.replicate (2 : ℤ).toNat (Entry.val 1) ++
        (if 0 < (2 : ℤ) then List.replicate (2 : ℤ).toNat Entry.nan else []) ++
        (if 0 < (0 : ℤ) then List.replicate (0 : ℤ).toNat Entry.inf else []) :=
  _generate_data_labels 1 2 2 0 1 0 0 rs0 (by norm_num) (by norm_num)
    [[Entry.val 0], [Entry.val 0], [Entry.val 0], [Entry.nan], [Entry.nan]]
    _ (rs0.advance 3)
    [DrawKind.gauss, DrawKind.uniform, DrawKind.uniform]
    (by norm_num [_generate_data, randnMatrix, uniformMatrix, rs0,
      RandomState.advance, List.range_succ] <;> decide)

/-- C8: every Sampler call advances the shared random source by exactly
`n_inliers * n_features` Gaussian draws followed by exactly
`n_outliers * n_features` uniform draws, in that order, and consumes no
other draws (the streams themselves are untouched and the cursor advances by
exactly the draw count). -/
theorem _generate_data_draws (nI nO nn ninf : ℤ) (f : ℕ) (coef off : ℚ)
    (rs : RandomState) (hI : 0 ≤ nI) (hO : 0 ≤ nO)
    (X : List (List Entry)) (y : List Entry) (rs' : RandomState)
    (tr : List DrawKind)
    (h : _generate_data nI nO f coef off rs nn ninf = some ((X, y), rs', tr)) :
    tr = List.replicate (nI.toNat * f) DrawKind.gauss ++
        List.replicate (nO.toNat * f) DrawKind.uniform ∧
    rs'.pos = rs.pos + (nI.toNat * f + nO.toNat * f) ∧
    rs'.normals = rs.normals ∧ rs'.uniforms = rs.uniforms ∧
    rs'.ints = rs.ints := by
  obtain ⟨core, -, -, heq⟩ :=
    _generate_data_char nI nO f coef off rs nn ninf hI hO
  rw [heq] at h
  simp only [Option.some.injEq, Prod.mk.injEq] at h
  obtain ⟨-, hrs, htr⟩ := h
  subst hrs htr
  exact ⟨rfl, rfl, rfl, rfl, rfl⟩

/-- Witness for C8 at a concrete input. -/
theorem _generate_data_draws_witness :
    ([DrawKind.gauss, DrawKind.gauss, DrawKind.uniform] : List DrawKind) =
      List.replicate ((2 : ℤ).toNat * 1) DrawKind.gauss ++
        List.replicate ((1 : ℤ).toNat * 1) DrawKind.uniform ∧
    (rs0.advance 3).pos = rs0.pos + ((2 : ℤ).toNat * 1 + (1 : ℤ).toNat * 1) ∧
    (rs0.advance 3).normals = rs0.normals ∧
    (rs0.advance 3).uniforms = rs0.uniforms ∧
    (rs0.advance 3).ints = rs0.ints :=
  _generate_data_draws 2 1 0 0 1 0 0 rs0 (by norm_num) (by norm_num)
    [[Entry.val 0], [Entry.val 0], [Entry.val 0]]
    [Entry.val 0, Entry.val 0, Entry.val 1] (rs0.advance 3)
    [DrawKind.gauss, DrawKind.gauss, DrawKind.uniform]
    (by norm_num [_generate_data, randnMatrix, uniformMatrix, rs0,
      RandomState.advance, List.range_succ] <;> decide)

/-- C10: for every Sampler call with `n_nan ≤ 0` and `n_inf ≤ 0` (including
negative values), no NaN or infinity rows are appended and no error is
raised: the call returns the same result as with both counts zero, and `X`
and `y` have exactly `n_inliers + n_outliers` rows. -/
theorem _generate_data_nonpos_injection (nI nO nn ninf : ℤ) (f : ℕ)
    (coef off : ℚ) (rs : RandomState)
    (hI : 0 ≤ nI) (hO : 0 ≤ nO) (hn : nn ≤ 0) (hf : ninf ≤ 0) :
    _generate_data nI nO f coef off rs nn ninf =
      _generate_data nI nO f coef off rs 0 0 ∧
    ∃ X y rs' tr,
      _generate_data nI nO f coef off rs nn ninf = some ((X, y), rs', tr) ∧
      X.length = nI.toNat + nO.toNat ∧ y.length = nI.toNat + nO.toNat := by
  have h1 : ¬(0 < nn) := by omega
  have h2 : ¬(0 < ninf) := by omega
  constructor
  · unfold _generate_data
    rw [if_pos ⟨hI, hO⟩, if_pos ⟨hI, hO⟩]
    simp [h1, h2]
  · obtain ⟨core, hlen, -, heq⟩ :=
      _generate_data_char nI nO f coef off rs nn ninf hI hO
    refine ⟨_, _, _, _, heq, ?_, ?_⟩ <;>
      simp [h1, h2, hlen]

/-- Witness for C10 at a concrete input with negative injection counts. -/
theorem _generate_data_nonpos_injection_witness :
    _generate_data 1 1 2 0 0 rs0 (-3) (-1) =
      _generate_data 1 1 2 0 0 rs0 0 0 ∧
    ∃ X y rs' tr,
      _generate_data 1 1 2 0 0 rs0 (-3) (-1) = some ((X, y), rs', tr) ∧
      X.length = (1 : ℤ).toNat + (1 : ℤ).toNat ∧
      y.length = (1 : ℤ).toNat + (1 : ℤ).toNat :=
  _generate_data_nonpos_injection 1 1 (-3) (-1) 2 0 0 rs0 (by norm_num)
    (by norm_num) (by norm_num) (by norm_num)

/-- C3: for every fixed seed and fixed values of all other parameters, two
separate calls of `generate_data` produce identical outputs.  A seed
determines the materialised random source, i.e. the three draw streams and
the cursor; two sources that agree on them produce equal results. -/
theorem generate_data_deterministic (n_train n_test f : ℕ) (c : ℚ)
    (t : Bool) (off : ℕ) (nn ninf : ℤ) (rs1 rs2 : RandomState)
    (h1 : rs1.normals = rs2.normals) (h2 : rs1.uniforms = rs2.uniforms)
    (h3 : rs1.ints = rs2.ints) (h4 : rs1.pos = rs2.pos) :
    generate_data n_train n_test f c t off rs1 nn ninf =
      generate_data n_train n_test f c t off rs2 nn ninf := by
  obtain ⟨a, b, d, e⟩ := rs1
  obtain ⟨a2, b2, d2, e2⟩ := rs2
  simp only at h1 h2 h3 h4
  subst h1 h2 h3 h4
  rfl

/-- Witness for C3 at a concrete input. -/
theorem generate_data_deterministic_witness :
    generate_data 1 1 1 0 true 1 rs0 0 0 =
      generate_data 1 1 1 0 true 1 rs0 0 0 :=
  generate_data_deterministic 1 1 1 0 true 1 0 0 rs0 rs0 rfl rfl rfl rfl

/-- C4: `generate_data` with `train_only = true` returns a 2-tuple
(`trainOnly`) and with `train_only = false` a 4-tuple (`trainTest`), and the
train components of the 4-tuple case coincide with the 2-tuple case for the
same source, since test generation happens strictly after training
generation and does not affect it. -/
theorem generate_data_train_only_shape (n_train n_test f : ℕ) (c : ℚ)
    (off : ℕ) (rs : RandomState) (nn ninf : ℤ) (r : GenerateResult) :
    (generate_data n_train n_test f c true off rs nn ninf = some r →
       ∃ X y, r = GenerateResult.trainOnly X y) ∧
    (generate_data n_train n_test f c false off rs nn ninf = some r →
       ∃ Xtr Xte ytr yte, r = GenerateResult.trainTest Xtr Xte ytr yte ∧
         generate_data n_train n_test f c true off rs nn ninf =
           some (GenerateResult.trainOnly Xtr ytr)) := by
  unfold generate_data
  cases hri : randint off rs with
  | none => simp
  | some r1 =>
    simp only
    cases hg : _generate_data (n_inliers_of n_train c)
        (n_outliers_of n_train c) f (coefDerived r1.2.1) (r1.1 : ℚ)
        ((random_sample r1.2.1).2.1) nn ninf with
    | none => simp
    | some trRes =>
      simp only [if_true, Bool.false_eq_true, if_false]
      constructor
      · intro h
        simp only [Option.some.injEq] at h
        exact ⟨_, _, h.symm⟩
      · intro h
        cases hg2 : _generate_data (n_inliers_of n_test c)
            (n_outliers_of n_test c) f (coefDerived r1.2.1) (r1.1 : ℚ)
            trRes.2.1 nn ninf with
        | none => rw [hg2] at h; simp at h
        | some te =>
          rw [hg2] at h
          simp only [Option.some.injEq] at h
          exact ⟨_, _, _, _, h.symm, rfl⟩

/-- Witness for C4 at a concrete input. -/
theorem generate_data_train_only_shape_witness :
    ∃ Xtr Xte ytr yte,
      GenerateResult.trainTest [[Entry.val 0]] [[Entry.val 0]] [Entry.val 0]
          [Entry.val 0] = GenerateResult.trainTest Xtr Xte ytr yte ∧
      generate_data 1 1 1 (1/2) true 10 rs0 0 0 =
        some (GenerateResult.trainOnly Xtr ytr) :=
  (generate_data_train_only_shape 1 1 1 (1/2) 10 rs0 0 0
      (GenerateResult.trainTest [[Entry.val 0]] [[Entry.val 0]] [Entry.val 0]
        [Entry.val 0])).2
    (by norm_num [generate_data, randint, rs0, RandomState.advance,
      coefDerived, random_sample, n_inliers_of, n_outliers_of, pyInt,
      _generate_data, randnMatrix, uniformMatrix, List.range_succ])

/-- C5: `generate_data` computes the training split as
`n_outliers_train = floor(n_train * contamination)` (the Python `int()`
truncation agrees with the floor on the non-negative products of valid
inputs) and `n_inliers_train = n_train - n_outliers_train`; in particular
`generate_data` with `n_train = 100`, `n_features = 2`,
`contamination = 0.1`, `train_only = true` returns an `X_train` with 100
rows of 2 columns and a `y_train` of 90 zeros followed by 10 ones, for every
seed. -/
theorem generate_data_split_counts :
    (∀ (n : ℕ) (c : ℚ), 0 ≤ (n : ℚ) * c →
        n_outliers_of n c = ⌊(n : ℚ) * c⌋ ∧
        n_inliers_of n c = (n : ℤ) - n_outliers_of n c) ∧
    (∀ (n_test : ℕ) (rs : RandomState), ∃ X : List (List Entry),
        generate_data 100 n_test 2 0.1 true 10 rs 0 0 =
          some (GenerateResult.trainOnly X
            (List.replicate 90 (Entry.val 0) ++
              List.replicate 10 (Entry.val 1))) ∧
        X.length = 100 ∧ ∀ row ∈ X, row.length = 2) := by
  constructor
  · intro n c h
    exact ⟨by rw [n_outliers_of, pyInt, if_pos h], rfl⟩
  · intro n_test rs
    have hO : n_outliers_of 100 0.1 = 10 := by
      norm_num [n_outliers_of, pyInt]
    have hI : n_inliers_of 100 0.1 = 90 := by
      rw [n_inliers_of, hO]; norm_num
    obtain ⟨core, hlen, hrows, heq⟩ :=
      _generate_data_char (n_inliers_of 100 0.1) (n_outliers_of 100 0.1) 2
        (coefDerived (rs.advance 1)) ((rs.ints rs.pos % 10 : ℕ) : ℚ)
        ((random_sample (rs.advance 1)).2.1) 0 0 (by rw [hI]; norm_num)
        (by rw [hO]; norm_num)
    refine ⟨core, ?_, ?_, hrows⟩
    · unfold generate_data
      rw [show randint 10 rs =
          some (rs.ints rs.pos % 10, rs.advance 1, [DrawKind.intDraw]) by
        simp [randint]]
      simp only
      rw [heq]
      simp only [if_true, Option.some.injEq, GenerateResult.trainOnly.injEq]
      constructor
      · simp
      · rw [hI, hO]; simp
    · rw [hlen, hI, hO]; rfl

/-- Witness for C5 at a concrete input. -/
theorem generate_data_split_counts_witness :
    n_outliers_of 100 (1/10) = ⌊(100 : ℚ) * (1/10)⌋ ∧
    n_inliers_of 100 (1/10) = (100 : ℤ) - n_outliers_of 100 (1/10) :=
  generate_data_split_counts.1 100 (1/10) (by norm_num)

/-- C6 (amended): calling `generate_data` with `offset = 0` always raises
`ValueError`, because `random_state.randint(low=0)` draws from the empty
range `[0, 0)`; no output is returned. -/
theorem generate_data_offset_zero (n_train n_test f : ℕ) (c : ℚ) (t : Bool)
    (rs : RandomState) (nn ninf : ℤ) :
    generate_data n_train n_test f c t 0 rs nn ninf = none := by
  unfold generate_data
  rw [show randint 0 rs = none by simp [randint]]

/-- Counterexample to C6 as stated: at the concrete input
`n_train = 1000, n_test = 500, n_features = 2, contamination = 0.1,
train_only = false, offset = 0, seed fixed, n_nan = n_inf = 0`, the call
raises (`none`) instead of returning structurally well-formed output. -/
theorem generate_data_offset_zero_cex :
    generate_data 1000 500 2 (1/10) false 0 rs0 0 0 = none := by decide

/-- C7 (amended): the derived scale coefficient
`coef_ = random_sample() + 0.001` lies in the half-open interval
`[0.001, 1.001)`: `random_sample` returns a unit variate in `[0, 1)`, and
the lower endpoint is attained when the draw is exactly `0`. -/
theorem coefDerived_bounds (rs : RandomState)
    (h0 : 0 ≤ rs.uniforms rs.pos) (h1 : rs.uniforms rs.pos < 1) :
    0.001 ≤ coefDerived rs ∧ coefDerived rs < 1.001 := by
  have hc : coefDerived rs = rs.uniforms rs.pos + 0.001 := rfl
  rw [hc]
  norm_num
  constructor <;> linarith

/-- Witness for the amended C7 at a concrete input. -/
theorem coefDerived_bounds_witness :
    0.001 ≤ coefDerived (rs0.advance 2) ∧
      coefDerived (rs0.advance 2) < 1.001 :=
  coefDerived_bounds (rs0.advance 2) (by norm_num [rs0, RandomState.advance])
    (by norm_num [rs0, RandomState.advance])

/-- Counterexample to C7 as stated: `rs0.advance 1` is exactly the state an
invocation `generate_data` with source `rs0` and `offset = 7` hands to the
`random_sample` draw (as the first conjunct shows); its unit draw is the
legitimate value `0`, so `coef_ = 0.001`, which is not in the open interval
`(0.001, 1.001)`. -/
theorem coefDerived_open_interval_cex :
    randint 7 rs0 = some (0, rs0.advance 1, [DrawKind.intDraw]) ∧
    (0 ≤ (rs0.advance 1).uniforms (rs0.advance 1).pos ∧
      (rs0.advance 1).uniforms (rs0.advance 1).pos < 1) ∧
    coefDerived (rs0.advance 1) = 0.001 ∧
    ¬(0.001 < coefDerived (rs0.advance 1) ∧
      coefDerived (rs0.advance 1) < 1.001) := by
  norm_num [coefDerived, random_sample, randint, rs0, RandomState.advance]

/-- C9: when `train_only = false`, the `n_nan` and `n_inf` injection counts
are applied to the test partition as well: `X_test` has
`n_test + n_nan + n_inf` rows, its last rows being the all-NaN block then
the all-infinity block, and `y_test` carries the matching NaN and infinity
tail entries. -/
theorem generate_data_test_injection (n_train n_test f : ℕ) (c : ℚ)
    (off : ℕ) (rs : RandomState) (nn ninf : ℤ)
    (hnn : 0 ≤ nn) (hni : 0 ≤ ninf)
    (hO : 0 ≤ n_outliers_of n_test c)
    (hOle : n_outliers_of n_test c ≤ (n_test : ℤ))
    (Xtr Xte : List (List Entry)) (ytr yte : List Entry)
    (h : generate_data n_train n_test f c false off rs nn ninf =
      some (GenerateResult.trainTest Xtr Xte ytr yte)) :
    Xte.length = n_test + nn.toNat + ninf.toNat ∧
    yte.length = n_test + nn.toNat + ninf.toNat ∧
    ∃ P q, P.length = n_test ∧ q.length = n_test ∧
      Xte = P ++ List.replicate nn.toNat (List.replicate f Entry.nan) ++
        List.replicate ninf.toNat (List.replicate f Entry.inf) ∧
      yte = q ++ List.replicate nn.toNat Entry.nan ++
        List.replicate ninf.toNat Entry.inf := by
  have hIte : 0 ≤ n_inliers_of n_test c := by
    rw [n_inliers_of]; omega
  unfold generate_data at h
  cases hri : randint off rs with
  | none => rw [hri] at h; simp at h
  | some r1 =>
    rw [hri] at h
    simp only at h
    cases hg : _generate_data (n_inliers_of n_train c)
        (n_outliers_of n_train c) f (coefDerived r1.2.1) (r1.1 : ℚ)
        ((random_sample r1.2.1).2.1) nn ninf with
    | none => rw [hg] at h; simp at h
    | some trRes =>
      rw [hg] at h
      simp only [Bool.false_eq_true, if_false] at h
      obtain ⟨core, hlen, hrows, heq⟩ :=
        _generate_data_char (n_inliers_of n_test c) (n_outliers_of n_test c)
          f (coefDerived r1.2.1) (r1.1 : ℚ) trRes.2.1 nn ninf hIte hO
      rw [heq] at h
      simp only [Option.some.injEq, GenerateResult.trainTest.injEq] at h
      obtain ⟨-, hX, -, hy⟩ := h
      have hcnt : (n_inliers_of n_test c).toNat +
          (n_outliers_of n_test c).toNat = n_test := by
        rw [n_inliers_of] at hIte ⊢
        omega
      subst hX hy
      rw [replicate_ite_of_nonneg nn hnn, replicate_ite_of_nonneg ninf hni,
        replicate_ite_of_nonneg nn hnn, replicate_ite_of_nonneg ninf hni]
      refine ⟨?_, ?_, core,
        List.replicate (n_inliers_of n_test c).toNat (Entry.val 0) ++
          List.replicate (n_outliers_of n_test c).toNat (Entry.val 1),
        ?_, ?_, ?_, ?_⟩
      · simp only [List.length_append, List.length_replicate, hlen]
        omega
      · simp only [List.length_append, List.length_replicate]
        omega
      · rw [hlen, hcnt]
      · simp only [List.length_append, List.length_replicate]
        omega
      · rfl
      · rfl

/-- Witness for C9 at a concrete input. -/
theorem generate_data_test_injection_witness :
    ([[Entry.val 0], [Entry.nan], [Entry.inf]] :
        List (List Entry)).length = 1 + (1 : ℤ).toNat + (1 : ℤ).toNat ∧
    ([Entry.val 0, Entry.nan, Entry.inf] : List Entry).length =
      1 + (1 : ℤ).toNat + (1 : ℤ).toNat ∧
    ∃ P q, P.length = 1 ∧ q.length = 1 ∧
      ([[Entry.val 0], [Entry.nan], [Entry.inf]] : List (List Entry)) =
        P ++ List.replicate (1 : ℤ).toNat (List.replicate 1 Entry.nan) ++
          List.replicate (1 : ℤ).toNat (List.replicate 1 Entry.inf) ∧
      ([Entry.val 0, Entry.nan, Entry.inf] : List Entry) =
        q ++ List.replicate (1 : ℤ).toNat Entry.nan ++
          List.replicate (1 : ℤ).toNat Entry.inf :=
  generate_data_test_injection 1 1 1 (1/2) 10 rs0 1 1 (by norm_num)
    (by norm_num) (by norm_num [n_outliers_of, pyInt])
    (by norm_num [n_outliers_of, pyInt])
    [[Entry.val 0], [Entry.nan], [Entry.inf]]
    [[Entry.val 0], [Entry.nan], [Entry.inf]]
    [Entry.val 0, Entry.nan, Entry.inf] [Entry.val 0, Entry.nan, Entry.inf]
    (by norm_num [generate_data, randint, rs0, RandomState.advance,
      coefDerived, random_sample, n_inliers_of, n_outliers_of, pyInt,
      _generate_data, randnMatrix, uniformMatrix, List.range_succ] <;>
      decide)

end Rova
